import Mathlib

/-!
Verification of the file-splitting service backend (`src/backend`).

Shallow embedding conventions:

* Python floats are modelled as rationals (`ℚ`). The floating-point square
  root used by `np.linalg.norm` is not rational, so functions that take a
  norm are parametrised by an abstract square-root oracle `sq : ℚ → ℚ`;
  theorems that need it assume only `sq x = 0 ↔ x = 0`, which is the one
  property of the square root that the zero-magnitude guard in
  `cosine_similarity` relies on.
* The CLIP / OpenAI embedding oracles, PDF rasterisation and text
  extraction are opaque: a composite page enters the pipeline as the pair
  of embedding vectors the oracles produce for it (`PageObs`), and a
  training run enters as the embeddings and content box computed for the
  training document.
* The template store file (`data/embeddings.json`) is modelled as
  `Option (List Char)`: `none` is a missing file, `some raw` a present file
  with contents `raw`.  JSON serialisation is modelled by a pair of
  abstract functions `parseStore` / `dumpStore`; `parseStore c = none`
  models a `json.JSONDecodeError` on input `c`.  OS-level read/write
  failures (the generic `except Exception` re-raise paths in `utils.py`)
  are outside this state space.
* Python `dict`s preserve insertion order, so they are modelled as
  association lists; `dict[k] = v` is `upsertStore` (replace in place or
  append), and iteration order is list order.
* The `pypdf` writer is opaque; `split_composite_pdf` is parametrised by
  `writerCount start stop`, the page count the writer reports after the
  pages of `[start, stop)` have been added (`len(writer.pages)` in the
  source).  A correct writer reports `stop - start`; the parameter lets
  the page-count verification step of the source be exercised.
* `print` logging is invisible to callers except for the page-count
  mismatch messages, which are collected in the second component of
  `split_composite_pdf`'s result so that theorems can talk about them.
  The similarity scores that the source rounds to 4 decimals for display
  are not carried in `SplitDoc`; no claim mentions them.
-/

/-- Template record stored for one trained document type
(`utils.add_training_embedding` lines 92-97): image embedding, text
embedding, content box and the key filename. -/
structure Template where
  image_embedding : List ℚ
  text_embedding : List ℚ
  bbox : ℤ × ℤ × ℤ × ℤ
  filename : String
deriving DecidableEq

/-- The template store contents: a JSON object keyed by filename,
modelled as an insertion-ordered association list. -/
abbrev Store := List (String × Template)

/-- Python `str.strip()` on the raw file contents. -/
def pyStrip (s : List Char) : List Char :=
  ((s.dropWhile Char.isWhitespace).reverse.dropWhile Char.isWhitespace).reverse

/-- Embedding of `utils.load_embeddings` (lines 19-47): a missing file and
an empty-after-strip file load as the empty store; unparseable JSON
(`json.JSONDecodeError`) also falls back to the empty store. -/
def load_embeddings (parseStore : List Char → Option Store)
    (file : Option (List Char)) : Store :=
  match file with
  | none => []
  | some raw =>
    let content := pyStrip raw
    if content.isEmpty then []
    else
      match parseStore content with
      | some data => data
      | none => []

/-- Python `embeddings_data[filename] = {...}`: replace the entry in place
if the key is present, otherwise append it. -/
def upsertStore : Store → String → Template → Store
  | [], key, t => [(key, t)]
  | (k', t') :: rest, key, t =>
    if k' = key then (key, t) :: rest else (k', t') :: upsertStore rest key t

/-- Embedding of `utils.save_embeddings` (lines 50-67): serialise the whole
store and overwrite the file. -/
def save_embeddings (dumpStore : Store → List Char) (data : Store) :
    Option (List Char) :=
  some (dumpStore data)

/-- Embedding of `utils.add_training_embedding` (lines 70-99): full
read-modify-write of the store file. -/
def add_training_embedding (parseStore : List Char → Option Store)
    (dumpStore : Store → List Char) (filename : String)
    (image_embedding text_embedding : List ℚ) (bbox : ℤ × ℤ × ℤ × ℤ)
    (file : Option (List Char)) : Option (List Char) :=
  let embeddings_data := load_embeddings parseStore file
  let embeddings_data' :=
    upsertStore embeddings_data filename
      ⟨image_embedding, text_embedding, bbox, filename⟩
  save_embeddings dumpStore embeddings_data'

/-- Dictionary lookup by key in the loaded store. -/
def storeLookup : Store → String → Option Template
  | [], _ => none
  | (k, t) :: rest, key => if k = key then some t else storeLookup rest key

/-- Dot product of two embedding vectors, `np.dot` on
possibly different-length lists (numpy would broadcast-error there; the
claims only use equal-length or degenerate vectors). -/
def dotProduct (v1 v2 : List ℚ) : ℚ :=
  (List.zipWith (· * ·) v1 v2).sum

/-- Squared magnitude of a vector; `np.linalg.norm v` is `sq (normSq v)`
for the abstract square root `sq`. -/
def normSq (v : List ℚ) : ℚ :=
  dotProduct v v

/-- Embedding of `embeddings.cosine_similarity` (lines 81-102),
parametrised by the square-root oracle `sq` (see the file header): return
exactly `0` when either norm is zero, otherwise divide the dot product by
the product of norms. -/
def cosine_similarity (sq : ℚ → ℚ) (vec1 vec2 : List ℚ) : ℚ :=
  let dot_product := dotProduct vec1 vec2
  let norm1 := sq (normSq vec1)
  let norm2 := sq (normSq vec2)
  if norm1 = 0 ∨ norm2 = 0 then 0
  else dot_product / (norm1 * norm2)

/-- Padding-and-clamp step of `content_detector.detect_content_area`
(lines 73-82).  `int(w * 0.10)` on a nonnegative machine integer equals
`w / 10` (floor division): the float product `w * 0.1` never rounds below
the preceding integer for the magnitudes a page admits. -/
def padClamp (page_width page_height : ℤ) (b : ℤ × ℤ × ℤ × ℤ) :
    ℤ × ℤ × ℤ × ℤ :=
  let (x, y, w, h) := b
  let padding_x := w / 10
  let padding_y := h / 10
  let x' := max 0 (x - padding_x)
  let y' := max 0 (y - padding_y)
  let w' := min (page_width - x') (w + 2 * padding_x)
  let h' := min (page_height - y') (h + 2 * padding_y)
  (x', y', w', h')

/-- Embedding of `content_detector.detect_content_area` (lines 46-82).
The two OpenCV contour stages are opaque oracles: `stage1` is the bounding
box of the largest large-enough edge contour (lines 46-51), `stage2` the
bounding box of the union of large-enough adaptive-threshold contours
(lines 53-71), each `none` when no contour passes the area filter.  With
no contour at all the full page is returned unpadded (early return,
line 67); otherwise the chosen box is padded and clamped. -/
def detect_content_area (page_width page_height : ℤ)
    (stage1 stage2 : Option (ℤ × ℤ × ℤ × ℤ)) : ℤ × ℤ × ℤ × ℤ :=
  match stage1 with
  | some b => padClamp page_width page_height b
  | none =>
    match stage2 with
    | some b => padClamp page_width page_height b
    | none => (0, 0, page_width, page_height)

/-- A box produced by `cv2.boundingRect` of a nonempty contour of a
`page_width × page_height` image: nonnegative corner, at least one pixel
in each direction, contained in the page. -/
def validContourBox (page_width page_height : ℤ)
    (b : ℤ × ℤ × ℤ × ℤ) : Prop :=
  0 ≤ b.1 ∧ 0 ≤ b.2.1 ∧ 1 ≤ b.2.2.1 ∧ 1 ≤ b.2.2.2 ∧
    b.1 + b.2.2.1 ≤ page_width ∧ b.2.1 + b.2.2.2 ≤ page_height

/-- Parameter names accepted by `utils.add_training_embedding`
(signature, lines 70-76). -/
def add_training_embedding_param_names : List String :=
  ["filename", "image_embedding", "text_embedding", "bbox", "embeddings_path"]

/-- Keyword arguments passed to `add_training_embedding` by
`training.process_training_document` (call site, lines 64-71), beyond the
four positional arguments. -/
def training_call_keyword_args : List String :=
  ["original_image_path", "cropped_image_path"]

/-- Python call semantics: without a `**kwargs` catch-all, a call raises
`TypeError` unless every keyword argument names a parameter. -/
def callAccepted (param_names keyword_args : List String) : Bool :=
  keyword_args.all (fun k => param_names.contains k)

/-- Embedding of `training.process_training_document` (lines 10-82).
`page_count` is the number of pages the rasteriser produced; `filename`
the store key; `image_embedding`, `text_embedding` and `bbox` stand for
the results of the content-detection and embedding oracles on the first
page.  The preview-image writes are invisible to the store.  The call to
`add_training_embedding` at lines 64-71 passes the keyword arguments
`original_image_path` and `cropped_image_path`, which the callee's
signature does not accept, so Python raises `TypeError` at the call. -/
def process_training_document (parseStore : List Char → Option Store)
    (dumpStore : Store → List Char) (page_count : ℕ) (filename : String)
    (image_embedding text_embedding : List ℚ) (bbox : ℤ × ℤ × ℤ × ℤ)
    (file : Option (List Char)) : Except String (Option (List Char)) :=
  if page_count = 0 then .error "PDF has no pages"
  else if callAccepted add_training_embedding_param_names
      training_call_keyword_args then
    .ok (add_training_embedding parseStore dumpStore filename
      image_embedding text_embedding bbox file)
  else
    .error "TypeError: add_training_embedding() got an unexpected keyword argument"

/-- Match threshold of `inference.py` line 17; also used as the image
gate. -/
def SIMILARITY_THRESHOLD : ℚ := 0.95

/-- Observable data of one composite page after the oracle pipeline of
`inference.find_first_pages` lines 72-81: the embedding of the cropped
page image and the embedding of the extracted page text. -/
structure PageObs where
  image_embedding : List ℚ
  text_embedding : List ℚ
deriving DecidableEq

/-- One entry of the per-page `matches` list
(`inference.find_first_pages` lines 98-103). -/
structure MatchEntry where
  filename : String
  image_similarity : ℚ
  text_similarity : ℚ
  combined_score : ℚ
deriving DecidableEq

/-- Candidate construction of `inference.find_first_pages` lines 88-103:
one entry per stored template whose image similarity strictly exceeds the
gate, carrying the weighted combination. -/
def pageMatches (sq : ℚ → ℚ) (training_embeddings : List (String × Template))
    (page : PageObs) : List MatchEntry :=
  training_embeddings.filterMap fun kv =>
    let image_sim :=
      cosine_similarity sq page.image_embedding kv.2.image_embedding
    if image_sim > SIMILARITY_THRESHOLD then
      let text_sim :=
        cosine_similarity sq page.text_embedding kv.2.text_embedding
      some ⟨kv.1, image_sim, text_sim, image_sim * 0.7 + text_sim * 0.3⟩
    else none

/-- Comparison used by `matches.sort(key=combined_score, reverse=True)`
(line 108): descending combined score; Python's sort is stable, as is
`List.mergeSort`. -/
def scoreDesc (a b : MatchEntry) : Bool :=
  decide (b.combined_score ≤ a.combined_score)

/-- One page's entry of the `similarity_info` dict
(`inference.find_first_pages` lines 119-126 and 167-174). -/
structure PageDecision where
  matched : Bool
  best_match : Option String
  image_similarity : ℚ
  text_similarity : ℚ
  combined_score : ℚ
  all_matches : List MatchEntry
deriving DecidableEq

/-- Per-page decision of `inference.find_first_pages` lines 84-174: sort
the gated candidates by combined score descending, take the head as best
match, and classify the page as matched when the best combined score
strictly exceeds the threshold. -/
def decidePage (sq : ℚ → ℚ) (training_embeddings : List (String × Template))
    (page : PageObs) : PageDecision :=
  let sorted_matches :=
    (pageMatches sq training_embeddings page).mergeSort scoreDesc
  match sorted_matches with
  | [] => ⟨false, none, 0, 0, 0, []⟩
  | best :: rest =>
    ⟨decide (best.combined_score > SIMILARITY_THRESHOLD), some best.filename,
      best.image_similarity, best.text_similarity, best.combined_score,
      best :: rest⟩

/-- Default decision used only to give `List.getD` a value at
out-of-range indices. -/
def defaultDecision : PageDecision := ⟨false, none, 0, 0, 0, []⟩

/-- Indices appended to `first_pages` by the loop of
`inference.find_first_pages` (line 130): the pages whose decision is
matched, in ascending page order. -/
def matchedIndices (decisions : List PageDecision) : List ℕ :=
  (List.range decisions.length).filter fun i =>
    (decisions.getD i defaultDecision).matched

/-- Embedding of `inference.find_first_pages` (lines 20-189): error when
the template store is empty (lines 42-43), otherwise the matched page
indices in ascending order together with the per-page decision map
(modelled as the index-decision pairs in page order). -/
def find_first_pages (sq : ℚ → ℚ)
    (training_embeddings : List (String × Template)) (pages : List PageObs) :
    Except String (List ℕ × List (ℕ × PageDecision)) :=
  if training_embeddings.isEmpty then
    .error "No training embeddings found. Please train the model first."
  else
    let decisions := pages.map (decidePage sq training_embeddings)
    .ok (matchedIndices decisions, decisions.enum)

/-- Boundary construction of `inference.split_composite_pdf` lines
229-248: append `total_pages` as terminal marker and pair consecutive
entries of the extended list. -/
def segmentBoundaries (first_pages : List ℕ) (total_pages : ℕ) :
    List (ℕ × ℕ) :=
  let fp := first_pages ++ [total_pages]
  fp.zip fp.tail

/-- One record of the list returned by `inference.split_composite_pdf`
(lines 285-296); `start_page` is 1-indexed for display as in the source.
The 4-decimal display rounding of the similarity scores is not
modelled. -/
structure SplitDoc where
  filename : String
  start_page : ℕ
  end_page : ℕ
  matched_document : Option String
deriving DecidableEq

/-- Message printed by `inference.split_composite_pdf` line 271 when the
written page count differs from the boundary width. -/
def pageCountMismatchMsg : String := "ERROR: Page count mismatch!"

/-- Embedding of `inference.split_composite_pdf` (lines 192-298): find the
first pages, fail when none was identified (lines 219-220, before any
output is written), otherwise produce one output document per boundary.
The second component collects the page-count mismatch messages of lines
265-271: a mismatch between `writerCount start stop` and `stop - start`
is printed but the loop continues and the document is still produced. -/
def split_composite_pdf (sq : ℚ → ℚ)
    (training_embeddings : List (String × Template)) (pages : List PageObs)
    (writerCount : ℕ → ℕ → ℕ) (base_name : String) :
    Except String (List SplitDoc × List String) :=
  match find_first_pages sq training_embeddings pages with
  | .error e => .error e
  | .ok (first_pages, similarity_info) =>
    if first_pages.isEmpty then
      .error "No first pages identified. Cannot split PDF."
    else
      let total_pages := pages.length
      let bounds := segmentBoundaries first_pages total_pages
      let docs := bounds.enum.map fun ib =>
        ({ filename :=
             base_name ++ "_document_" ++ toString (ib.1 + 1) ++ ".pdf",
           start_page := ib.2.1 + 1,
           end_page := ib.2.2,
           matched_document :=
             (List.lookup ib.2.1 similarity_info).bind
               PageDecision.best_match } : SplitDoc)
      let mismatches := bounds.filterMap fun b =>
        if writerCount b.1 b.2 ≠ b.2 - b.1 then some pageCountMismatchMsg
        else none
      .ok (docs, mismatches)

/-- Consecutive pairs of a list; `segmentBoundaries fp T` is
`consecPairs (fp ++ [T])`. -/
def consecPairs (l : List ℕ) : List (ℕ × ℕ) :=
  l.zip l.tail

/-- Concrete template used to instantiate theorems: a stored document
type keyed `"t"` with one-dimensional embeddings. -/
def demoTemplate : Template := ⟨[1], [1], (0, 0, 0, 0), "t"⟩

/-- Concrete one-template store contents. -/
def demoTraining : List (String × Template) := [("t", demoTemplate)]

/-- Concrete composite page whose embeddings equal `demoTemplate`'s, so
its cosine similarities are `1` and it is classified as a first page. -/
def demoPage : PageObs := ⟨[1], [1]⟩

/-- The candidate entry `demoPage` produces against `demoTraining`. -/
def demoEntry : MatchEntry := ⟨"t", 1, 1, 1⟩

/-- The decision `demoPage` receives against `demoTraining`. -/
def demoDecision : PageDecision := ⟨true, some "t", 1, 1, 1, [demoEntry]⟩

/-- A decision of an unmatched page, as built at
`inference.find_first_pages` lines 167-174. -/
def demoUnmatchedDecision : PageDecision := ⟨false, none, 0, 0, 0, []⟩

/-- A decision of a matched page (field values are immaterial to the
segmentation step, which reads only `matched`). -/
def demoMatchedDecision : PageDecision := ⟨true, some "t", 1, 1, 1, []⟩

/-- A faulty PDF writer oracle that reports zero pages written for every
boundary, exercising the page-count verification of
`inference.split_composite_pdf` lines 265-271. -/
def demoWriter : ℕ → ℕ → ℕ := fun _ _ => 0

theorem consecPairs_nil : consecPairs [] = [] := rfl

theorem consecPairs_singleton (a : ℕ) : consecPairs [a] = [] := rfl

theorem consecPairs_cons₂ (a b : ℕ) (l : List ℕ) :
    consecPairs (a :: b :: l) = (a, b) :: consecPairs (b :: l) := rfl

theorem segmentBoundaries_eq_consecPairs (fp : List ℕ) (T : ℕ) :
    segmentBoundaries fp T = consecPairs (fp ++ [T]) := rfl

theorem chain'_consecPairs : ∀ l : List ℕ,
    List.Chain' (fun p q : ℕ × ℕ => p.2 = q.1) (consecPairs l)
  | [] => by simp [consecPairs_nil]
  | [a] => by simp [consecPairs_singleton]
  | a :: b :: l => by
    rw [consecPairs_cons₂]
    match l with
    | [] => simp [consecPairs_singleton]
    | c :: l' =>
      rw [consecPairs_cons₂]
      exact List.chain'_cons.mpr
        ⟨rfl, by
          have h := chain'_consecPairs (b :: c :: l')
          rwa [consecPairs_cons₂] at h⟩

theorem mem_consecPairs_rel : ∀ (l : List ℕ), List.Chain' (· < ·) l →
    ∀ p ∈ consecPairs l, p.1 < p.2
  | [], _, p, hp => by simp [consecPairs_nil] at hp
  | [a], _, p, hp => by simp [consecPairs_singleton] at hp
  | a :: b :: l, hl, p, hp => by
    rw [consecPairs_cons₂] at hp
    rcases List.mem_cons.mp hp with h | h
    · subst h; exact (List.chain'_cons.mp hl).1
    · exact mem_consecPairs_rel (b :: l) (List.chain'_cons.mp hl).2 p h

theorem head_le_fst_of_mem_consecPairs : ∀ (l : List ℕ),
    List.Chain' (· < ·) l → ∀ a : ℕ, l.head? = some a →
    ∀ p ∈ consecPairs l, a ≤ p.1
  | [], _, a, ha, p, hp => by simp at ha
  | [x], _, a, ha, p, hp => by simp [consecPairs_singleton] at hp
  | x :: y :: l, hl, a, ha, p, hp => by
    have hax : a = x := Eq.symm (by simpa using ha)
    subst hax
    rw [consecPairs_cons₂] at hp
    rcases List.mem_cons.mp hp with h | h
    · subst h; exact le_refl _
    · have hxy : a < y := (List.chain'_cons.mp hl).1
      have := head_le_fst_of_mem_consecPairs (y :: l)
        (List.chain'_cons.mp hl).2 y rfl p h
      omega

theorem pairwise_fst_consecPairs : ∀ (l : List ℕ), List.Chain' (· < ·) l →
    List.Pairwise (fun p q : ℕ × ℕ => p.1 < q.1) (consecPairs l)
  | [] , _ => by simp [consecPairs_nil]
  | [a], _ => by simp [consecPairs_singleton]
  | a :: b :: l, hl => by
    rw [consecPairs_cons₂]
    refine List.pairwise_cons.mpr ⟨?_, pairwise_fst_consecPairs (b :: l)
      (List.chain'_cons.mp hl).2⟩
    intro q hq
    have hb := head_le_fst_of_mem_consecPairs (b :: l)
      (List.chain'_cons.mp hl).2 b rfl q hq
    have hab : a < b := (List.chain'_cons.mp hl).1
    omega

theorem pairwise_disjoint_consecPairs : ∀ (l : List ℕ),
    List.Chain' (· < ·) l →
    List.Pairwise (fun p q : ℕ × ℕ => p.2 ≤ q.1) (consecPairs l)
  | [] , _ => by simp [consecPairs_nil]
  | [a], _ => by simp [consecPairs_singleton]
  | a :: b :: l, hl => by
    rw [consecPairs_cons₂]
    refine List.pairwise_cons.mpr ⟨?_, pairwise_disjoint_consecPairs (b :: l)
      (List.chain'_cons.mp hl).2⟩
    intro q hq
    exact head_le_fst_of_mem_consecPairs (b :: l)
      (List.chain'_cons.mp hl).2 b rfl q hq

theorem head_le_getLast_of_chain' : ∀ (l : List ℕ), List.Chain' (· < ·) l →
    ∀ a t : ℕ, l.head? = some a → l.getLast? = some t → a ≤ t
  | [], _, a, t, ha, _ => by simp at ha
  | [x], _, a, t, ha, ht => by
    have h1 : a = x := Eq.symm (by simpa using ha)
    have h2 : t = x := Eq.symm (by simpa using ht)
    omega
  | x :: y :: l, hl, a, t, ha, ht => by
    have hax : a = x := Eq.symm (by simpa using ha)
    have hxy : x < y := by subst hax; exact (List.chain'_cons.mp hl).1
    have ht' : (y :: l).getLast? = some t := by
      rw [List.getLast?_cons_cons] at ht; exact ht
    have := head_le_getLast_of_chain' (y :: l) (List.chain'_cons.mp hl).2
      y t rfl ht'
    omega

theorem consecPairs_cover : ∀ (l : List ℕ), List.Chain' (· < ·) l →
    ∀ a t : ℕ, l.head? = some a → l.getLast? = some t →
    ∀ k : ℕ, (∃ p ∈ consecPairs l, p.1 ≤ k ∧ k < p.2) ↔ (a ≤ k ∧ k < t)
  | [], _, a, t, ha, _, k => by simp at ha
  | [x], _, a, t, ha, ht, k => by
    have hax : a = x := Eq.symm (by simpa using ha)
    have htx : t = x := Eq.symm (by simpa using ht)
    subst hax; subst htx
    simp [consecPairs_singleton]
  | x :: y :: l, hl, a, t, ha, ht, k => by
    have hax : a = x := Eq.symm (by simpa using ha)
    subst hax
    have hxy : a < y := (List.chain'_cons.mp hl).1
    have ht' : (y :: l).getLast? = some t := by
      rw [List.getLast?_cons_cons] at ht; exact ht
    have hyt : y ≤ t := head_le_getLast_of_chain' (y :: l)
      (List.chain'_cons.mp hl).2 y t rfl ht'
    have ih := consecPairs_cover (y :: l) (List.chain'_cons.mp hl).2
      y t rfl ht' k
    rw [consecPairs_cons₂]
    constructor
    · rintro ⟨p, hp, hpk⟩
      rcases List.mem_cons.mp hp with h | h
      · subst h; simp only at hpk; omega
      · have := ih.mp ⟨p, h, hpk⟩; omega
    · intro hk
      by_cases hky : k < y
      · exact ⟨(a, y), List.mem_cons_self _ _, by simp; omega⟩
      · obtain ⟨p, hp, hpk⟩ := ih.mpr (by omega)
        exact ⟨p, List.mem_cons_of_mem _ hp, hpk⟩

theorem matchedIndices_pairwise (decisions : List PageDecision) :
    List.Pairwise (· < ·) (matchedIndices decisions) :=
  List.Pairwise.filter _ (List.pairwise_lt_range _)

theorem mem_matchedIndices (decisions : List PageDecision) (i : ℕ) :
    i ∈ matchedIndices decisions ↔
      ∃ d, decisions[i]? = some d ∧ d.matched = true := by
  unfold matchedIndices
  rw [List.mem_filter, List.mem_range]
  constructor
  · rintro ⟨hi, hd⟩
    refine ⟨decisions[i], List.getElem?_eq_getElem hi, ?_⟩
    rw [List.getD_eq_getElem?_getD, List.getElem?_eq_getElem hi] at hd
    simpa using hd
  · rintro ⟨d, hd, hmatched⟩
    have hi : i < decisions.length := by
      by_contra hge
      rw [List.getElem?_eq_none (by omega)] at hd
      exact Option.noConfusion hd
    refine ⟨hi, ?_⟩
    rw [List.getD_eq_getElem?_getD, hd]
    simpa using hmatched

theorem matchedIndices_lt_length (decisions : List PageDecision) :
    ∀ i ∈ matchedIndices decisions, i < decisions.length := by
  intro i hi
  have := (mem_matchedIndices decisions i).mp hi
  obtain ⟨d, hd, _⟩ := this
  by_contra hge
  rw [List.getElem?_eq_none (by omega)] at hd
  exact Option.noConfusion hd

theorem storeLookup_upsertStore (data : Store) (key : String) (t : Template) :
    storeLookup (upsertStore data key t) key = some t := by
  induction data with
  | nil => simp [upsertStore, storeLookup]
  | cons kv rest ih =>
    obtain ⟨k', t'⟩ := kv
    by_cases hk : k' = key
    · simp [upsertStore, hk, storeLookup]
    · simp [upsertStore, hk, storeLookup, ih]

theorem mem_pageMatches_iff (sq : ℚ → ℚ)
    (training_embeddings : List (String × Template)) (page : PageObs)
    (m : MatchEntry) :
    m ∈ pageMatches sq training_embeddings page ↔
      ∃ kv ∈ training_embeddings,
        cosine_similarity sq page.image_embedding kv.2.image_embedding >
          SIMILARITY_THRESHOLD ∧
        m = ⟨kv.1,
          cosine_similarity sq page.image_embedding kv.2.image_embedding,
          cosine_similarity sq page.text_embedding kv.2.text_embedding,
          cosine_similarity sq page.image_embedding kv.2.image_embedding * 0.7 +
            cosine_similarity sq page.text_embedding kv.2.text_embedding *
              0.3⟩ := by
  unfold pageMatches
  rw [List.mem_filterMap]
  constructor
  · rintro ⟨kv, hkv, hm⟩
    by_cases hgate : cosine_similarity sq page.image_embedding
        kv.2.image_embedding > SIMILARITY_THRESHOLD
    · rw [if_pos hgate] at hm
      exact ⟨kv, hkv, hgate, (Option.some.inj hm).symm⟩
    · rw [if_neg hgate] at hm
      exact Option.noConfusion hm
  · rintro ⟨kv, hkv, hgate, hm⟩
    refine ⟨kv, hkv, ?_⟩
    rw [if_pos hgate, hm]

theorem decidePage_all_matches (sq : ℚ → ℚ)
    (training_embeddings : List (String × Template)) (page : PageObs) :
    (decidePage sq training_embeddings page).all_matches =
      (pageMatches sq training_embeddings page).mergeSort scoreDesc := by
  unfold decidePage
  cases h : (pageMatches sq training_embeddings page).mergeSort scoreDesc with
  | nil => simp [h]
  | cons best rest => simp [h]

theorem decidePage_matched_iff (sq : ℚ → ℚ)
    (training_embeddings : List (String × Template)) (page : PageObs) :
    (decidePage sq training_embeddings page).matched = true ↔
      ∃ m ∈ (decidePage sq training_embeddings page).all_matches,
        m.combined_score > SIMILARITY_THRESHOLD := by
  unfold decidePage
  cases h : (pageMatches sq training_embeddings page).mergeSort scoreDesc with
  | nil => simp [h]
  | cons best rest =>
    simp only [h, decide_eq_true_eq]
    constructor
    · intro hbest
      exact ⟨best, List.mem_cons_self _ _, hbest⟩
    · rintro ⟨m, hm, hscore⟩
      rcases List.mem_cons.mp hm with rfl | hm'
      · exact hscore
      · have hsorted := @List.sorted_mergeSort MatchEntry scoreDesc
          (fun a b c hab hbc => by
            simp only [scoreDesc, decide_eq_true_eq] at *
            exact le_trans hbc hab)
          (fun a b => by
            simp only [scoreDesc, Bool.or_eq_true, decide_eq_true_eq]
            exact le_total b.combined_score a.combined_score)
          (pageMatches sq training_embeddings page)
        rw [h] at hsorted
        have hle := (List.pairwise_cons.mp hsorted).1 m hm'
        simp only [scoreDesc, decide_eq_true_eq] at hle
        exact lt_of_lt_of_le hscore hle

theorem decidePage_best_match_of_matched (sq : ℚ → ℚ)
    (training_embeddings : List (String × Template)) (page : PageObs) :
    (decidePage sq training_embeddings page).matched = true →
    (decidePage sq training_embeddings page).best_match ≠ none := by
  unfold decidePage
  cases h : (pageMatches sq training_embeddings page).mergeSort scoreDesc with
  | nil => simp [h]
  | cons best rest => simp [h]

theorem padClamp_inBounds (W H : ℤ) (b : ℤ × ℤ × ℤ × ℤ)
    (hb : validContourBox W H b) :
    0 ≤ (padClamp W H b).1 ∧ 0 ≤ (padClamp W H b).2.1 ∧
    0 < (padClamp W H b).2.2.1 ∧ 0 < (padClamp W H b).2.2.2 ∧
    (padClamp W H b).1 + (padClamp W H b).2.2.1 ≤ W ∧
    (padClamp W H b).2.1 + (padClamp W H b).2.2.2 ≤ H := by
  obtain ⟨x, y, w, h⟩ := b
  simp only [validContourBox] at hb
  simp only [padClamp]
  omega

/-- C9: for every page with positive width and height, and contour-stage
oracle outputs that are genuine bounding boxes of the page,
`detect_content_area` returns a region inside the page bounds with
positive area; when neither stage finds a qualifying contour it returns
the full page, and otherwise it returns the winning stage's box padded by
10 percent per side and clamped to the page. -/
theorem detect_content_area_bounds (W H : ℤ)
    (stage1 stage2 : Option (ℤ × ℤ × ℤ × ℤ)) (hW : 0 < W) (hH : 0 < H)
    (h1 : ∀ b ∈ stage1, validContourBox W H b)
    (h2 : ∀ b ∈ stage2, validContourBox W H b) :
    (0 ≤ (detect_content_area W H stage1 stage2).1 ∧
     0 ≤ (detect_content_area W H stage1 stage2).2.1 ∧
     0 < (detect_content_area W H stage1 stage2).2.2.1 ∧
     0 < (detect_content_area W H stage1 stage2).2.2.2 ∧
     (detect_content_area W H stage1 stage2).1 +
       (detect_content_area W H stage1 stage2).2.2.1 ≤ W ∧
     (detect_content_area W H stage1 stage2).2.1 +
       (detect_content_area W H stage1 stage2).2.2.2 ≤ H) ∧
    (stage1 = none → stage2 = none →
      detect_content_area W H stage1 stage2 = (0, 0, W, H)) ∧
    (∀ b, stage1 = some b →
      detect_content_area W H stage1 stage2 = padClamp W H b) ∧
    (stage1 = none → ∀ b, stage2 = some b →
      detect_content_area W H stage1 stage2 = padClamp W H b) := by
  cases stage1 with
  | some b =>
    refine ⟨?_, ?_, ?_, ?_⟩
    · exact padClamp_inBounds W H b (h1 b rfl)
    · intro habs; exact Option.noConfusion habs
    · intro b' hb'
      rw [Option.some.inj hb'] at *
      rfl
    · intro habs; exact Option.noConfusion habs
  | none =>
    cases stage2 with
    | some b =>
      refine ⟨?_, ?_, ?_, ?_⟩
      · exact padClamp_inBounds W H b (h2 b rfl)
      · intro _ habs; exact Option.noConfusion habs
      · intro b' hb'; exact Option.noConfusion hb'
      · intro _ b' hb'
        rw [Option.some.inj hb'] at *
        rfl
    | none =>
      refine ⟨?_, fun _ _ => rfl, ?_, ?_⟩
      · simp only [detect_content_area]
        omega
      · intro b' hb'; exact Option.noConfusion hb'
      · intro _ b' hb'; exact Option.noConfusion hb'

/-- Witness for C9 at a concrete page and stage-1 box. -/
theorem detect_content_area_bounds_witness :
    (0 < (100 : ℤ)) ∧ (0 < (80 : ℤ)) ∧
    (∀ b ∈ some ((10, 10, 20, 20) : ℤ × ℤ × ℤ × ℤ),
      validContourBox 100 80 b) ∧
    (∀ b ∈ (none : Option (ℤ × ℤ × ℤ × ℤ)), validContourBox 100 80 b) ∧
    (0 ≤ (detect_content_area 100 80 (some (10, 10, 20, 20)) none).1 ∧
     0 ≤ (detect_content_area 100 80 (some (10, 10, 20, 20)) none).2.1 ∧
     0 < (detect_content_area 100 80 (some (10, 10, 20, 20)) none).2.2.1 ∧
     0 < (detect_content_area 100 80 (some (10, 10, 20, 20)) none).2.2.2 ∧
     (detect_content_area 100 80 (some (10, 10, 20, 20)) none).1 +
       (detect_content_area 100 80 (some (10, 10, 20, 20)) none).2.2.1 ≤
         100 ∧
     (detect_content_area 100 80 (some (10, 10, 20, 20)) none).2.1 +
       (detect_content_area 100 80 (some (10, 10, 20, 20)) none).2.2.2 ≤
         80) ∧
    ((some ((10, 10, 20, 20) : ℤ × ℤ × ℤ × ℤ)) = none →
      (none : Option (ℤ × ℤ × ℤ × ℤ)) = none →
      detect_content_area 100 80 (some (10, 10, 20, 20)) none =
        (0, 0, 100, 80)) ∧
    (∀ b, (some ((10, 10, 20, 20) : ℤ × ℤ × ℤ × ℤ)) = some b →
      detect_content_area 100 80 (some (10, 10, 20, 20)) none =
        padClamp 100 80 b) ∧
    ((some ((10, 10, 20, 20) : ℤ × ℤ × ℤ × ℤ)) = none →
      ∀ b, (none : Option (ℤ × ℤ × ℤ × ℤ)) = some b →
      detect_content_area 100 80 (some (10, 10, 20, 20)) none =
        padClamp 100 80 b) := by
  refine ⟨by decide, by decide, ?_, ?_, ?_⟩
  · intro b hb
    have hb' : b = (10, 10, 20, 20) := Eq.symm (by simpa using hb)
    subst hb'
    unfold validContourBox
    decide
  · intro b hb
    exact absurd hb (by simp)
  · exact detect_content_area_bounds 100 80 (some (10, 10, 20, 20)) none
      (by decide) (by decide)
      (fun b hb => by
        have hb' : b = (10, 10, 20, 20) := Eq.symm (by simpa using hb)
        subst hb'
        unfold validContourBox
        decide)
      (fun b hb => absurd hb (by simp))

/-- C8: whenever either input vector has zero magnitude,
`cosine_similarity` returns exactly `0`; the division branch is only
reached when both magnitudes are nonzero, and there its divisor (the
product of the two norms) is nonzero, so the function never divides by
zero.  The hypothesis on `sq` states that the square root of a
nonnegative number is zero exactly on zero, which is how
`np.linalg.norm v == 0` coincides with `normSq v = 0`. -/
theorem cosine_similarity_zero_guard (sq : ℚ → ℚ) (vec1 vec2 : List ℚ)
    (hsq : ∀ x : ℚ, sq x = 0 ↔ x = 0) :
    ((normSq vec1 = 0 ∨ normSq vec2 = 0) →
      cosine_similarity sq vec1 vec2 = 0) ∧
    (normSq vec1 ≠ 0 → normSq vec2 ≠ 0 →
      sq (normSq vec1) * sq (normSq vec2) ≠ 0 ∧
      cosine_similarity sq vec1 vec2 =
        dotProduct vec1 vec2 / (sq (normSq vec1) * sq (normSq vec2))) := by
  constructor
  · intro hzero
    unfold cosine_similarity
    rcases hzero with h | h
    · rw [if_pos (Or.inl ((hsq _).mpr h))]
    · rw [if_pos (Or.inr ((hsq _).mpr h))]
  · intro h1 h2
    have hn1 : sq (normSq vec1) ≠ 0 := fun h => h1 ((hsq _).mp h)
    have hn2 : sq (normSq vec2) ≠ 0 := fun h => h2 ((hsq _).mp h)
    refine ⟨mul_ne_zero hn1 hn2, ?_⟩
    unfold cosine_similarity
    rw [if_neg (by push_neg; exact ⟨hn1, hn2⟩)]

/-- Witness for C8: the all-zero vector `[0]` has zero magnitude and its
similarity against `[1]` is exactly `0` (with the identity as the
square-root oracle, which is zero exactly on zero). -/
theorem cosine_similarity_zero_guard_witness :
    (∀ x : ℚ, id x = 0 ↔ x = 0) ∧
    ((normSq [(0 : ℚ)] = 0 ∨ normSq [(1 : ℚ)] = 0) →
      cosine_similarity id [(0 : ℚ)] [(1 : ℚ)] = 0) ∧
    (normSq [(0 : ℚ)] = 0) ∧
    (cosine_similarity id [(0 : ℚ)] [(1 : ℚ)] = 0) := by
  have hsq : ∀ x : ℚ, id x = 0 ↔ x = 0 := fun x => Iff.rfl
  have hz : normSq [(0 : ℚ)] = 0 := by
    simp [normSq, dotProduct]
  have hmain := cosine_similarity_zero_guard id [(0 : ℚ)] [(1 : ℚ)] hsq
  exact ⟨hsq, hmain.1, hz, hmain.1 (Or.inl hz)⟩

/-- C6: loading the template store is total over the modelled file
states: a missing file, a present-but-empty (or whitespace-only) file,
and a file whose contents do not parse as JSON each load as the empty
store; no exception escapes in these states. -/
theorem load_embeddings_total (parseStore : List Char → Option Store) :
    load_embeddings parseStore none = [] ∧
    load_embeddings parseStore (some []) = [] ∧
    ∀ raw, parseStore (pyStrip raw) = none →
      load_embeddings parseStore (some raw) = [] := by
  refine ⟨rfl, rfl, ?_⟩
  intro raw hparse
  unfold load_embeddings
  by_cases he : (pyStrip raw).isEmpty
  · simp [he]
  · simp [he, hparse]

/-- Witness for C6 at a concrete parser and concrete corrupted
contents. -/
theorem load_embeddings_total_witness :
    load_embeddings (fun _ => none) none = [] ∧
    load_embeddings (fun _ => none) (some []) = [] ∧
    ((fun _ : List Char => (none : Option Store)) (pyStrip ['x']) = none) ∧
    load_embeddings (fun _ => none) (some ['x']) = [] := by
  have hmain := load_embeddings_total (fun _ => none)
  exact ⟨hmain.1, hmain.2.1, rfl, hmain.2.2 ['x'] rfl⟩

/-- C7: storing a template through `add_training_embedding` and loading
the store back returns the very template that was stored — image
embedding, text embedding and content box bit-identical.  The two
hypotheses say that the JSON round-trip is faithful at the one store that
is written: parsing the dumped store yields it back, and its dump is not
whitespace-only. -/
theorem add_training_embedding_roundtrip
    (parseStore : List Char → Option Store) (dumpStore : Store → List Char)
    (file : Option (List Char)) (filename : String)
    (image_embedding text_embedding : List ℚ) (bbox : ℤ × ℤ × ℤ × ℤ)
    (data' : Store)
    (hdata' : data' =
      upsertStore (load_embeddings parseStore file) filename
        ⟨image_embedding, text_embedding, bbox, filename⟩)
    (hparse : parseStore (pyStrip (dumpStore data')) = some data')
    (hne : pyStrip (dumpStore data') ≠ []) :
    storeLookup
      (load_embeddings parseStore
        (add_training_embedding parseStore dumpStore filename
          image_embedding text_embedding bbox file))
      filename =
      some ⟨image_embedding, text_embedding, bbox, filename⟩ := by
  have hadd : add_training_embedding parseStore dumpStore filename
      image_embedding text_embedding bbox file = some (dumpStore data') := by
    unfold add_training_embedding save_embeddings
    rw [hdata']
  rw [hadd]
  have hload : load_embeddings parseStore (some (dumpStore data')) = data' := by
    simp only [load_embeddings]
    rw [if_neg (by simpa [List.isEmpty_iff] using hne), hparse]
  rw [hload, hdata']
  exact storeLookup_upsertStore _ _ _

/-- Witness for C7 at a concrete serialiser pair whose round-trip at the
written store is checked by evaluation. -/
theorem add_training_embedding_roundtrip_witness :
    ([("t", Template.mk [1] [] (0, 0, 0, 0) "t")] =
      upsertStore (load_embeddings (fun _ => some [("t", Template.mk [1] []
        (0, 0, 0, 0) "t")]) none) "t" ⟨[1], [], (0, 0, 0, 0), "t"⟩) ∧
    ((fun _ : List Char => some [("t", Template.mk [1] [] (0, 0, 0, 0) "t")])
        (pyStrip ((fun _ : Store => ['x'])
          [("t", Template.mk [1] [] (0, 0, 0, 0) "t")])) =
      some [("t", Template.mk [1] [] (0, 0, 0, 0) "t")]) ∧
    (pyStrip ((fun _ : Store => ['x'])
      [("t", Template.mk [1] [] (0, 0, 0, 0) "t")]) ≠ []) ∧
    storeLookup
      (load_embeddings (fun _ => some [("t", Template.mk [1] [] (0, 0, 0, 0)
        "t")])
        (add_training_embedding
          (fun _ => some [("t", Template.mk [1] [] (0, 0, 0, 0) "t")])
          (fun _ => ['x']) "t" [1] [] (0, 0, 0, 0) none))
      "t" =
      some ⟨[1], [], (0, 0, 0, 0), "t"⟩ := by
  refine ⟨rfl, rfl, by decide, ?_⟩
  exact add_training_embedding_roundtrip
    (fun _ => some [("t", Template.mk [1] [] (0, 0, 0, 0) "t")])
    (fun _ => ['x']) none "t" [1] [] (0, 0, 0, 0)
    [("t", Template.mk [1] [] (0, 0, 0, 0) "t")] rfl rfl (by decide)

/-- C2: `process_training_document` on a valid one-page PDF and an
empty (zero-byte) store file raises a `TypeError` instead of storing the
first template: the call at `training.py` lines 64-71 passes the keyword
arguments `original_image_path` and `cropped_image_path`, which
`utils.add_training_embedding` does not accept.  The store itself does
load as empty without raising (second conjunct). -/
theorem process_training_document_type_error :
    process_training_document (fun _ => none) (fun _ => ['x']) 1 "doc"
        [1] [1] (0, 0, 0, 0) (some []) =
      .error
        "TypeError: add_training_embedding() got an unexpected keyword argument" ∧
    load_embeddings (fun _ => none) (some []) = [] ∧
    callAccepted add_training_embedding_param_names
      training_call_keyword_args = false := by
  refine ⟨?_, rfl, ?_⟩ <;> rfl

/-- C4: against a non-empty template set, the matcher builds a fused
candidate (score `0.7 × image + 0.3 × text`) exactly for the templates
whose image similarity strictly exceeds the image gate — a template at or
below the gate contributes no candidate — and classifies the page
`matched = true` exactly when some gated candidate's fused score (hence
the best one's) strictly exceeds the match threshold; gate and match
threshold are the same constant `SIMILARITY_THRESHOLD`. -/
theorem page_matcher_gate_and_threshold (sq : ℚ → ℚ)
    (training_embeddings : List (String × Template)) (page : PageObs)
    (_htr : training_embeddings ≠ []) :
    (∀ m ∈ (decidePage sq training_embeddings page).all_matches,
        m.image_similarity > SIMILARITY_THRESHOLD ∧
        m.combined_score =
          0.7 * m.image_similarity + 0.3 * m.text_similarity) ∧
    (∀ kv ∈ training_embeddings,
        (cosine_similarity sq page.image_embedding kv.2.image_embedding >
            SIMILARITY_THRESHOLD ↔
          ∃ m ∈ (decidePage sq training_embeddings page).all_matches,
            m.filename = kv.1 ∧
            m.image_similarity =
              cosine_similarity sq page.image_embedding
                kv.2.image_embedding ∧
            m.text_similarity =
              cosine_similarity sq page.text_embedding
                kv.2.text_embedding)) ∧
    ((decidePage sq training_embeddings page).matched = true ↔
      ∃ m ∈ (decidePage sq training_embeddings page).all_matches,
        m.combined_score > SIMILARITY_THRESHOLD) := by
  have hall : ∀ m ∈ (decidePage sq training_embeddings page).all_matches,
      m.image_similarity > SIMILARITY_THRESHOLD ∧
      m.combined_score =
        0.7 * m.image_similarity + 0.3 * m.text_similarity := by
    intro m hm
    rw [decidePage_all_matches, List.mem_mergeSort] at hm
    obtain ⟨kv, _, hgate, hmeq⟩ := (mem_pageMatches_iff _ _ _ _).mp hm
    subst hmeq
    exact ⟨hgate, by ring⟩
  refine ⟨hall, ?_, decidePage_matched_iff sq training_embeddings page⟩
  intro kv hkv
  constructor
  · intro hgate
    refine ⟨⟨kv.1,
      cosine_similarity sq page.image_embedding kv.2.image_embedding,
      cosine_similarity sq page.text_embedding kv.2.text_embedding,
      cosine_similarity sq page.image_embedding kv.2.image_embedding * 0.7 +
        cosine_similarity sq page.text_embedding kv.2.text_embedding * 0.3⟩,
      ?_, rfl, rfl, rfl⟩
    rw [decidePage_all_matches, List.mem_mergeSort]
    exact (mem_pageMatches_iff _ _ _ _).mpr ⟨kv, hkv, hgate, rfl⟩
  · rintro ⟨m, hm, _, him, _⟩
    have := (hall m hm).1
    rwa [him] at this

/-- Witness for C4 at the concrete one-template store and matching
page. -/
theorem page_matcher_gate_and_threshold_witness :
    (demoTraining ≠ []) ∧
    ((∀ m ∈ (decidePage id demoTraining demoPage).all_matches,
        m.image_similarity > SIMILARITY_THRESHOLD ∧
        m.combined_score =
          0.7 * m.image_similarity + 0.3 * m.text_similarity) ∧
    (∀ kv ∈ demoTraining,
        (cosine_similarity id demoPage.image_embedding kv.2.image_embedding >
            SIMILARITY_THRESHOLD ↔
          ∃ m ∈ (decidePage id demoTraining demoPage).all_matches,
            m.filename = kv.1 ∧
            m.image_similarity =
              cosine_similarity id demoPage.image_embedding
                kv.2.image_embedding ∧
            m.text_similarity =
              cosine_similarity id demoPage.text_embedding
                kv.2.text_embedding)) ∧
    ((decidePage id demoTraining demoPage).matched = true ↔
      ∃ m ∈ (decidePage id demoTraining demoPage).all_matches,
        m.combined_score > SIMILARITY_THRESHOLD)) := by
  have htr : demoTraining ≠ [] := by simp [demoTraining]
  exact ⟨htr, page_matcher_gate_and_threshold id demoTraining demoPage htr⟩

/-- C10: whenever `find_first_pages` returns normally, the decision map
has exactly one entry per page index of the composite in page order, the
first-page list is strictly increasing, an index is in the first-page
list exactly when its decision is matched, and every matched decision
carries a non-null best match. -/
theorem find_first_pages_invariants (sq : ℚ → ℚ)
    (training_embeddings : List (String × Template)) (pages : List PageObs)
    (first_pages : List ℕ) (similarity_info : List (ℕ × PageDecision))
    (h : find_first_pages sq training_embeddings pages =
      .ok (first_pages, similarity_info)) :
    similarity_info.map Prod.fst = List.range pages.length ∧
    List.Pairwise (· < ·) first_pages ∧
    (∀ i : ℕ, i ∈ first_pages ↔
      ∃ d, (i, d) ∈ similarity_info ∧ d.matched = true) ∧
    (∀ i d, (i, d) ∈ similarity_info → d.matched = true →
      d.best_match ≠ none) := by
  unfold find_first_pages at h
  by_cases hte : training_embeddings.isEmpty
  · rw [if_pos hte] at h
    exact absurd h (by simp)
  · rw [if_neg hte] at h
    have hpair := Except.ok.inj h
    have hfp : matchedIndices (pages.map (decidePage sq training_embeddings)) =
        first_pages := congrArg Prod.fst hpair
    have hinfo : (pages.map (decidePage sq training_embeddings)).enum =
        similarity_info := congrArg Prod.snd hpair
    subst hfp
    subst hinfo
    refine ⟨?_, matchedIndices_pairwise _, ?_, ?_⟩
    · rw [List.enum_map_fst, List.length_map]
    · intro i
      rw [mem_matchedIndices]
      constructor
      · rintro ⟨d, hd, hmatch⟩
        exact ⟨d, List.mem_enum_iff_getElem?.mpr hd, hmatch⟩
      · rintro ⟨d, hd, hmatch⟩
        exact ⟨d, List.mem_enum_iff_getElem?.mp hd, hmatch⟩
    · intro i d hd hmatch
      have hget := List.mem_enum_iff_getElem?.mp hd
      have hlt : i < (pages.map (decidePage sq training_embeddings)).length := by
        by_contra hge
        rw [List.getElem?_eq_none (by omega)] at hget
        exact Option.noConfusion hget
      rw [List.getElem?_eq_getElem hlt] at hget
      have hi : i < pages.length := by simpa using hlt
      have hdval : d = decidePage sq training_embeddings pages[i] := by
        have heq := Option.some.inj hget
        rw [List.getElem_map] at heq
        exact heq.symm
      rw [hdval]
      exact decidePage_best_match_of_matched _ _ _
        (by rw [← hdval]; exact hmatch)

/-- Witness for C10 at a concrete normal return of `find_first_pages`
(one stored template, empty composite). -/
theorem find_first_pages_invariants_witness :
    (find_first_pages id demoTraining [] = .ok ([], [])) ∧
    (([] : List (ℕ × PageDecision)).map Prod.fst =
      List.range (List.length ([] : List PageObs)) ∧
    List.Pairwise (· < ·) ([] : List ℕ) ∧
    (∀ i : ℕ, i ∈ ([] : List ℕ) ↔
      ∃ d, (i, d) ∈ ([] : List (ℕ × PageDecision)) ∧ d.matched = true) ∧
    (∀ i d, (i, d) ∈ ([] : List (ℕ × PageDecision)) → d.matched = true →
      d.best_match ≠ none)) :=
  ⟨rfl, find_first_pages_invariants id demoTraining [] [] [] rfl⟩

/-- C5: when every page decision is unmatched, `find_first_pages` returns
normally with an empty first-page list, and `split_composite_pdf` fails
with an error before creating the output directory or writing any output
document — the all-or-nothing policy of `inference.py` lines 219-223. -/
theorem split_no_match_all_or_nothing (sq : ℚ → ℚ)
    (training_embeddings : List (String × Template)) (pages : List PageObs)
    (writerCount : ℕ → ℕ → ℕ) (base_name : String)
    (htr : training_embeddings.isEmpty = false)
    (hnone : ∀ page ∈ pages,
      (decidePage sq training_embeddings page).matched = false) :
    find_first_pages sq training_embeddings pages =
      .ok ([], (pages.map (decidePage sq training_embeddings)).enum) ∧
    split_composite_pdf sq training_embeddings pages writerCount base_name =
      .error "No first pages identified. Cannot split PDF." := by
  have hmi : matchedIndices (pages.map (decidePage sq training_embeddings)) =
      [] := by
    unfold matchedIndices
    rw [List.filter_eq_nil_iff]
    intro i hi
    rw [List.mem_range, List.length_map] at hi
    rw [List.getD_eq_getElem?_getD,
      List.getElem?_eq_getElem (by simpa using hi), List.getElem_map]
    simp [hnone pages[i] (List.getElem_mem _)]
  have hfind : find_first_pages sq training_embeddings pages =
      .ok ([], (pages.map (decidePage sq training_embeddings)).enum) := by
    unfold find_first_pages
    rw [if_neg (by simp [htr])]
    show Except.ok
        (matchedIndices (pages.map (decidePage sq training_embeddings)),
          (pages.map (decidePage sq training_embeddings)).enum) = _
    rw [hmi]
  refine ⟨hfind, ?_⟩
  unfold split_composite_pdf
  rw [hfind]
  rfl

/-- Witness for C5 at the concrete one-template store and a composite
with no matched page. -/
theorem split_no_match_all_or_nothing_witness :
    (demoTraining.isEmpty = false) ∧
    (∀ page ∈ ([] : List PageObs),
      (decidePage id demoTraining page).matched = false) ∧
    find_first_pages id demoTraining [] =
      .ok ([], (([] : List PageObs).map (decidePage id demoTraining)).enum) ∧
    split_composite_pdf id demoTraining [] demoWriter "doc" =
      .error "No first pages identified. Cannot split PDF." := by
  have h := split_no_match_all_or_nothing id demoTraining [] demoWriter "doc"
    rfl (by simp)
  exact ⟨rfl, by simp, h.1, h.2⟩

/-- C1 counterexample: a two-page composite whose only matched page is
page 1.  The segmentation step of `split_composite_pdf` produces the
single boundary `[1, 2)`, so page 0 is covered by no boundary and the
boundaries do not jointly cover `[0, total_pages)`. -/
theorem segment_boundaries_cover_counterexample :
    (∃ d ∈ [demoUnmatchedDecision, demoMatchedDecision],
      d.matched = true) ∧
    segmentBoundaries
        (matchedIndices [demoUnmatchedDecision, demoMatchedDecision])
        (List.length [demoUnmatchedDecision, demoMatchedDecision]) =
      [(1, 2)] ∧
    ¬ ∃ b ∈ segmentBoundaries
        (matchedIndices [demoUnmatchedDecision, demoMatchedDecision])
        (List.length [demoUnmatchedDecision, demoMatchedDecision]),
      b.1 ≤ 0 ∧ 0 < b.2 := by
  decide

/-- C1 (amended): for every decision sequence with at least one matched
page, the boundaries of the segmentation step are contiguous, have
`start < end`, are ordered by start ascending and pairwise non-
overlapping, and jointly cover exactly `[f, total_pages)` where `f` is
the first matched page index.  They cover `[0, total_pages)` exactly when
page 0 is matched; pages before the first matched page belong to no
boundary. -/
theorem segment_boundaries_invariants (decisions : List PageDecision)
    (hm : ∃ d ∈ decisions, d.matched = true) :
    List.Chain' (fun p q : ℕ × ℕ => p.2 = q.1)
      (segmentBoundaries (matchedIndices decisions) decisions.length) ∧
    (∀ b ∈ segmentBoundaries (matchedIndices decisions) decisions.length,
      b.1 < b.2) ∧
    List.Pairwise (fun p q : ℕ × ℕ => p.1 < q.1)
      (segmentBoundaries (matchedIndices decisions) decisions.length) ∧
    List.Pairwise (fun p q : ℕ × ℕ => p.2 ≤ q.1)
      (segmentBoundaries (matchedIndices decisions) decisions.length) ∧
    ∀ k : ℕ,
      (∃ b ∈ segmentBoundaries (matchedIndices decisions) decisions.length,
        b.1 ≤ k ∧ k < b.2) ↔
      ((matchedIndices decisions).headI ≤ k ∧ k < decisions.length) := by
  have hne : matchedIndices decisions ≠ [] := by
    obtain ⟨d, hd, hmatch⟩ := hm
    obtain ⟨i, hi, hget⟩ := List.mem_iff_getElem.mp hd
    have hmem : i ∈ matchedIndices decisions :=
      (mem_matchedIndices _ _).mpr
        ⟨d, by rw [List.getElem?_eq_getElem hi, hget], hmatch⟩
    intro h0
    rw [h0] at hmem
    exact List.not_mem_nil _ hmem
  have hchain : List.Chain' (· < ·)
      (matchedIndices decisions ++ [decisions.length]) := by
    refine List.Pairwise.chain' (List.pairwise_append.mpr ⟨?_, ?_, ?_⟩)
    · exact matchedIndices_pairwise decisions
    · simp
    · intro a ha b hb
      have hb' : b = decisions.length := by simpa using hb
      rw [hb']
      exact matchedIndices_lt_length decisions a ha
  obtain ⟨x, fp', hx⟩ : ∃ x fp', matchedIndices decisions = x :: fp' := by
    cases hmi : matchedIndices decisions with
    | nil => exact absurd hmi hne
    | cons x fp' => exact ⟨x, fp', rfl⟩
  have hhead : (matchedIndices decisions ++ [decisions.length]).head? =
      some ((matchedIndices decisions).headI) := by
    rw [hx]
    rfl
  have hlast : (matchedIndices decisions ++ [decisions.length]).getLast? =
      some decisions.length := List.getLast?_concat _
  rw [segmentBoundaries_eq_consecPairs]
  refine ⟨chain'_consecPairs _, mem_consecPairs_rel _ hchain, ?_, ?_, ?_⟩
  · exact pairwise_fst_consecPairs _ hchain
  · exact pairwise_disjoint_consecPairs _ hchain
  · intro k
    exact consecPairs_cover _ hchain _ _ hhead hlast k

/-- Witness for C1's amended theorem at a concrete decision sequence. -/
theorem segment_boundaries_invariants_witness :
    (∃ d ∈ [demoMatchedDecision, demoUnmatchedDecision],
      d.matched = true) ∧
    (List.Chain' (fun p q : ℕ × ℕ => p.2 = q.1)
      (segmentBoundaries
        (matchedIndices [demoMatchedDecision, demoUnmatchedDecision])
        (List.length [demoMatchedDecision, demoUnmatchedDecision])) ∧
    (∀ b ∈ segmentBoundaries
        (matchedIndices [demoMatchedDecision, demoUnmatchedDecision])
        (List.length [demoMatchedDecision, demoUnmatchedDecision]),
      b.1 < b.2) ∧
    List.Pairwise (fun p q : ℕ × ℕ => p.1 < q.1)
      (segmentBoundaries
        (matchedIndices [demoMatchedDecision, demoUnmatchedDecision])
        (List.length [demoMatchedDecision, demoUnmatchedDecision])) ∧
    List.Pairwise (fun p q : ℕ × ℕ => p.2 ≤ q.1)
      (segmentBoundaries
        (matchedIndices [demoMatchedDecision, demoUnmatchedDecision])
        (List.length [demoMatchedDecision, demoUnmatchedDecision])) ∧
    ∀ k : ℕ,
      (∃ b ∈ segmentBoundaries
          (matchedIndices [demoMatchedDecision, demoUnmatchedDecision])
          (List.length [demoMatchedDecision, demoUnmatchedDecision]),
        b.1 ≤ k ∧ k < b.2) ↔
      ((matchedIndices
          [demoMatchedDecision, demoUnmatchedDecision]).headI ≤ k ∧
        k < (List.length
          [demoMatchedDecision, demoUnmatchedDecision]))) :=
  ⟨by decide,
    segment_boundaries_invariants [demoMatchedDecision, demoUnmatchedDecision]
      (by decide)⟩

theorem demo_cosine_one : cosine_similarity id [(1 : ℚ)] [(1 : ℚ)] = 1 := by
  norm_num [cosine_similarity, normSq, dotProduct]

theorem demo_pageMatches :
    pageMatches id demoTraining demoPage = [demoEntry] := by
  unfold pageMatches demoTraining demoTemplate demoPage demoEntry
  rw [List.filterMap]
  norm_num [demo_cosine_one, SIMILARITY_THRESHOLD]

theorem demo_decidePage :
    decidePage id demoTraining demoPage = demoDecision := by
  unfold decidePage
  rw [demo_pageMatches, List.mergeSort_singleton]
  simp only [demoEntry, demoDecision, PageDecision.mk.injEq]
  norm_num [SIMILARITY_THRESHOLD]

theorem demo_find :
    find_first_pages id demoTraining [demoPage] =
      .ok ([0], [(0, demoDecision)]) := by
  unfold find_first_pages
  rw [if_neg (by simp [demoTraining])]
  show Except.ok
      (matchedIndices ([demoPage].map (decidePage id demoTraining)),
        ([demoPage].map (decidePage id demoTraining)).enum) = _
  rw [List.map_singleton, demo_decidePage]
  rfl

theorem segmentBoundaries_length (first_pages : List ℕ) (T : ℕ) :
    (segmentBoundaries first_pages T).length = first_pages.length := by
  simp [segmentBoundaries, List.length_zip]

/-- C3 (amended): a mismatch between the written page count and
`end - start` is not fatal — `split_composite_pdf` still returns
success, with one output document per boundary (the mismatched one
included); the mismatch is only printed: the error log contains the
mismatch message exactly when some boundary's written count differs from
its width, and is silent exactly when the writer is correct on every
boundary.  No IntegrityError-kind failure reaches the caller. -/
theorem split_pagecount_mismatch_nonfatal (sq : ℚ → ℚ)
    (training_embeddings : List (String × Template)) (pages : List PageObs)
    (writerCount : ℕ → ℕ → ℕ) (base_name : String)
    (first_pages : List ℕ) (similarity_info : List (ℕ × PageDecision))
    (h : find_first_pages sq training_embeddings pages =
      .ok (first_pages, similarity_info))
    (hfp : first_pages ≠ []) :
    ∃ docs log,
      split_composite_pdf sq training_embeddings pages writerCount
        base_name = .ok (docs, log) ∧
      docs.length = first_pages.length ∧
      (log = [] ↔ ∀ b ∈ segmentBoundaries first_pages pages.length,
        writerCount b.1 b.2 = b.2 - b.1) ∧
      (pageCountMismatchMsg ∈ log ↔
        ∃ b ∈ segmentBoundaries first_pages pages.length,
          writerCount b.1 b.2 ≠ b.2 - b.1) := by
  obtain ⟨f0, fps, rfl⟩ : ∃ f0 fps, first_pages = f0 :: fps := by
    cases first_pages with
    | nil => exact absurd rfl hfp
    | cons f0 fps => exact ⟨f0, fps, rfl⟩
  refine ⟨(segmentBoundaries (f0 :: fps) pages.length).enum.map (fun ib =>
      ({ filename := base_name ++ "_document_" ++ toString (ib.1 + 1) ++
           ".pdf",
         start_page := ib.2.1 + 1, end_page := ib.2.2,
         matched_document := (List.lookup ib.2.1 similarity_info).bind
           PageDecision.best_match } : SplitDoc)),
    (segmentBoundaries (f0 :: fps) pages.length).filterMap (fun b =>
      if writerCount b.1 b.2 ≠ b.2 - b.1 then some pageCountMismatchMsg
      else none), ?_, ?_, ?_, ?_⟩
  · unfold split_composite_pdf
    rw [h]
    rfl
  · rw [List.length_map, List.enum_length, segmentBoundaries_length]
  · rw [List.filterMap_eq_nil_iff]
    constructor
    · intro hall b hb
      have hnone := hall b hb
      by_contra hmis
      rw [if_pos hmis] at hnone
      exact Option.noConfusion hnone
    · intro hall b hb
      rw [if_neg (fun hc => hc (hall b hb))]
  · rw [List.mem_filterMap]
    constructor
    · rintro ⟨b, hb, hsome⟩
      by_cases hmis : writerCount b.1 b.2 ≠ b.2 - b.1
      · exact ⟨b, hb, hmis⟩
      · rw [if_neg hmis] at hsome
        exact Option.noConfusion hsome
    · rintro ⟨b, hb, hmis⟩
      exact ⟨b, hb, by rw [if_pos hmis]⟩

/-- Witness for C3's amended theorem at a concrete run with a faulty
writer. -/
theorem split_pagecount_mismatch_nonfatal_witness :
    (find_first_pages id demoTraining [demoPage] =
      .ok ([0], [(0, demoDecision)])) ∧
    (([0] : List ℕ) ≠ []) ∧
    ∃ docs log,
      split_composite_pdf id demoTraining [demoPage] demoWriter "doc" =
        .ok (docs, log) ∧
      docs.length = ([0] : List ℕ).length ∧
      (log = [] ↔ ∀ b ∈ segmentBoundaries [0] (List.length [demoPage]),
        demoWriter b.1 b.2 = b.2 - b.1) ∧
      (pageCountMismatchMsg ∈ log ↔
        ∃ b ∈ segmentBoundaries [0] (List.length [demoPage]),
          demoWriter b.1 b.2 ≠ b.2 - b.1) :=
  ⟨demo_find, by simp,
    split_pagecount_mismatch_nonfatal id demoTraining [demoPage] demoWriter
      "doc" [0] [(0, demoDecision)] demo_find (by simp)⟩

/-- C3 counterexample: a concrete run in which the writer reports zero
pages for the boundary `[0, 1)` — a page-count mismatch — yet
`split_composite_pdf` returns success with the mismatched document in
its output list; the mismatch is only recorded in the printed log.  The
claim that a mismatch is fatal to the operation is therefore false of
the code. -/
theorem split_pagecount_mismatch_counterexample :
    demoWriter 0 1 ≠ 1 - 0 ∧
    split_composite_pdf id demoTraining [demoPage] demoWriter "doc" =
      .ok ([⟨"doc_document_1.pdf", 1, 1, some "t"⟩],
        [pageCountMismatchMsg]) := by
  refine ⟨by decide, ?_⟩
  unfold split_composite_pdf
  rw [demo_find]
  rfl
